import Mathlib

/-!
Shallow embedding of the form-intake / CSV-import service.

Strings are modelled as lists of characters (`Str`); JavaScript string
values coming from a request body or a CSV row are `Option Str`
(`none` models an absent / non-string value, i.e. JS `undefined`).
Regular-expression character classes are modelled by their ASCII code
ranges, exactly the ranges the source regexes name.
-/

abbrev Str := List Char

/-- Whitespace characters recognised by the model of JS `trim` and of the
regex class `\s`: the ASCII whitespace characters (tab, LF, VT, FF, CR,
space).  JS additionally treats some Unicode spaces as whitespace; every
such character is also a non-word character, is rewritten to an
underscore by the non-word pass of the header normalizer and is removed
by `trim` only at the edges, so the ASCII model is faithful on every
string the theorems below touch. -/
def isWsChar (c : Char) : Bool :=
  c.toNat == 32 || (9 ≤ c.toNat && c.toNat ≤ 13)

/-- Character class `[0-9]` (also the regex class `\d`). -/
def isAsciiDigit (c : Char) : Bool :=
  48 ≤ c.toNat && c.toNat ≤ 57

/-- Character class `[A-Z]`. -/
def isAsciiUpperChar (c : Char) : Bool :=
  65 ≤ c.toNat && c.toNat ≤ 90

/-- Character class `[a-z]`. -/
def isAsciiLowerChar (c : Char) : Bool :=
  97 ≤ c.toNat && c.toNat ≤ 122

/-- Character class `[A-Za-z0-9]`. -/
def isAlnumChar (c : Char) : Bool :=
  isAsciiUpperChar c || isAsciiLowerChar c || isAsciiDigit c

/-- Character class `\w`, i.e. `[A-Za-z0-9_]`. -/
def isWordChar (c : Char) : Bool :=
  isAlnumChar c || c == '_'

/-- Model of JS `String.prototype.trim`: drop whitespace from both ends. -/
def trimChars (l : Str) : Str :=
  ((l.dropWhile isWsChar).reverse.dropWhile isWsChar).reverse

/-!
Field validators of `src/server.js` (also repeated in
`src/unnamed/part_000`).  Each one implements the regex test named in
its doc comment.
-/

/-- Source `onlyLettersOrNumbers`: regex test `^[A-Za-z0-9]+$`. -/
def onlyLettersOrNumbers (v : Str) : Bool :=
  !v.isEmpty && v.all isAlnumChar

/-- Source `onlyDigits`: regex test `^\d+$`. -/
def onlyDigits (v : Str) : Bool :=
  !v.isEmpty && v.all isAsciiDigit

/-- Source `isAlphanumeric`: regex test `^[A-Za-z0-9]+$` (same regex as
`onlyLettersOrNumbers`). -/
def isAlphanumeric (v : Str) : Bool :=
  !v.isEmpty && v.all isAlnumChar

/-- Source `startsWithNumber`: regex test `^[0-9]` (unanchored at the
end, so it only constrains the first character). -/
def startsWithNumber (v : Str) : Bool :=
  match v with
  | [] => false
  | c :: _ => isAsciiDigit c

/-- Characters allowed by the regex class `[^\s@]`. -/
def emailChar (c : Char) : Bool :=
  !isWsChar c && c != '@'

/-- Tail characters of a list may hold the dot of `local@domain.tld`:
true iff the list has a dot at a position that is neither the first nor
the last, i.e. it splits as nonempty ++ dot ++ nonempty. -/
def hasInteriorDot (l : Str) : Bool :=
  match l with
  | [] => false
  | _ :: t => t.dropLast.contains '.'

/-- Source `isValidEmail`: regex test `^[^\s@]+@[^\s@]+\.[^\s@]+$`.
The regex matches exactly the strings of the form a ++ "@" ++ b ++ "." ++ c
with a, b, c nonempty and free of whitespace and of the at sign; since
a, b and c never hold an at sign, such a string holds exactly one at
sign, and the dot may sit anywhere strictly inside the part after it. -/
def isValidEmail (v : Str) : Bool :=
  match v.splitOn '@' with
  | [locPart, domPart] =>
      !locPart.isEmpty && locPart.all emailChar &&
      domPart.all emailChar && hasInteriorDot domPart
  | _ => false

/-!
Row validator of `src/server.js` (`validateForm`, lines 54-85).  The
source pushes at most one error per field onto one array, field after
field; pushing in program order is concatenation of the per-field error
lists in field order.
-/

structure FieldError where
  field : String
  msg : String
deriving DecidableEq

/-- Request body of the form service: each field is a JS value that is
either a string or absent. -/
structure FormBody where
  first_name : Option String := none
  second_name : Option String := none
  email : Option String := none
  phone : Option String := none
  eircode : Option String := none

/-- Source helper `fv`: a string value is trimmed, any other value
becomes the empty string. -/
def fv (v : Option String) : Str :=
  match v with
  | some s => trimChars s.data
  | none => []

/-- Errors pushed for `first_name`: required, then max length 20, then
letters and numbers only; at most one is pushed. -/
def firstNameErrors (v : Str) : List FieldError :=
  if v.isEmpty then [⟨"first_name", "First name required"⟩]
  else if 20 < v.length then [⟨"first_name", "Max 20 characters"⟩]
  else if !onlyLettersOrNumbers v then [⟨"first_name", "Only letters and numbers allowed"⟩]
  else []

/-- Errors pushed for `second_name`. -/
def secondNameErrors (v : Str) : List FieldError :=
  if v.isEmpty then [⟨"second_name", "Second name required"⟩]
  else if 20 < v.length then [⟨"second_name", "Max 20 characters"⟩]
  else if !onlyLettersOrNumbers v then [⟨"second_name", "Only letters and numbers allowed"⟩]
  else []

/-- Errors pushed for `email`. -/
def emailErrors (v : Str) : List FieldError :=
  if v.isEmpty then [⟨"email", "Email required"⟩]
  else if !isValidEmail v then [⟨"email", "Invalid email"⟩]
  else []

/-- Errors pushed for `phone`: the source checks `onlyDigits` before the
length test. -/
def phoneErrors (v : Str) : List FieldError :=
  if v.isEmpty then [⟨"phone", "Phone required"⟩]
  else if !onlyDigits v then [⟨"phone", "Phone must contain only numbers"⟩]
  else if v.length ≠ 10 then [⟨"phone", "Phone must be exactly 10 digits"⟩]
  else []

/-- Errors pushed for `eircode`: required, then length 6, then first
character a digit, then alphanumeric. -/
def eircodeErrors (v : Str) : List FieldError :=
  if v.isEmpty then [⟨"eircode", "Eircode required"⟩]
  else if v.length ≠ 6 then [⟨"eircode", "Eircode must be exactly 6 characters"⟩]
  else if !startsWithNumber v then [⟨"eircode", "Eircode must start with a number"⟩]
  else if !isAlphanumeric v then [⟨"eircode", "Eircode must be alphanumeric"⟩]
  else []

/-- Normalized values returned by `validateForm` alongside the errors. -/
structure FormValues where
  first_name : Str
  second_name : Str
  email : Str
  phone : Str
  eircode : Str
deriving DecidableEq

structure FormResult where
  errors : List FieldError
  values : FormValues

/-- Source `validateForm` (src/server.js lines 54-85): trims each field,
pushes the per-field errors in field order, and returns the trimmed
values. -/
def validateForm (b : FormBody) : FormResult :=
  let first_name := fv b.first_name
  let second_name := fv b.second_name
  let email := fv b.email
  let phone := fv b.phone
  let eircode := fv b.eircode
  { errors :=
      firstNameErrors first_name ++ secondNameErrors second_name ++
      emailErrors email ++ phoneErrors phone ++ eircodeErrors eircode,
    values := ⟨first_name, second_name, email, phone, eircode⟩ }

example : (validateForm {}).errors.length = 5 := by decide

example :
    (validateForm { first_name := some "John", second_name := some "Doe",
                    email := some "a@b.c", phone := some "0851234567",
                    eircode := some "1AB2C3" }).errors = [] := by decide

/-!
Theorems for claims C2, C3, C4 about `validateForm`.
-/

theorem filter_phone_firstNameErrors (v : Str) :
    (firstNameErrors v).filter (fun e => e.field == "phone") = [] := by
  unfold firstNameErrors; split_ifs <;> rfl

theorem filter_phone_secondNameErrors (v : Str) :
    (secondNameErrors v).filter (fun e => e.field == "phone") = [] := by
  unfold secondNameErrors; split_ifs <;> rfl

theorem filter_phone_emailErrors (v : Str) :
    (emailErrors v).filter (fun e => e.field == "phone") = [] := by
  unfold emailErrors; split_ifs <;> rfl

theorem filter_phone_eircodeErrors (v : Str) :
    (eircodeErrors v).filter (fun e => e.field == "phone") = [] := by
  unfold eircodeErrors; split_ifs <;> rfl

theorem filter_phone_phoneErrors (v : Str) :
    (phoneErrors v).filter (fun e => e.field == "phone") = phoneErrors v := by
  unfold phoneErrors; split_ifs <;> rfl

/-- Claim C3: row validation checks every field and collects all
failures without short-circuiting; a record missing every required
field yields exactly one error per required field, in field order —
five errors for the form shape, not more. -/
theorem validateForm_missing_every_field (b : FormBody)
    (h1 : fv b.first_name = []) (h2 : fv b.second_name = [])
    (h3 : fv b.email = []) (h4 : fv b.phone = []) (h5 : fv b.eircode = []) :
    (validateForm b).errors =
      [⟨"first_name", "First name required"⟩, ⟨"second_name", "Second name required"⟩,
       ⟨"email", "Email required"⟩, ⟨"phone", "Phone required"⟩,
       ⟨"eircode", "Eircode required"⟩] := by
  simp [validateForm, h1, h2, h3, h4, h5, firstNameErrors, secondNameErrors,
        emailErrors, phoneErrors, eircodeErrors]

/-- Witness for C3: the empty body is missing every field and receives
exactly the five required-field errors. -/
theorem validateForm_missing_every_field_witness :
    (validateForm {}).errors =
      [⟨"first_name", "First name required"⟩, ⟨"second_name", "Second name required"⟩,
       ⟨"email", "Email required"⟩, ⟨"phone", "Phone required"⟩,
       ⟨"eircode", "Eircode required"⟩] :=
  validateForm_missing_every_field {} rfl rfl rfl rfl rfl

/-- Counterexample for C2: for the phone value "abc" both the length
rule and the charset rule fail, and the reported error is the charset
message, not the length message the claim predicts. -/
theorem phone_charset_error_reported_first :
    (validateForm { first_name := some "John", second_name := some "Doe",
                    email := some "a@b.c", phone := some "abc",
                    eircode := some "1AB2C3" }).errors =
      [⟨"phone", "Phone must contain only numbers"⟩] ∧
    (validateForm { first_name := some "John", second_name := some "Doe",
                    email := some "a@b.c", phone := some "abc",
                    eircode := some "1AB2C3" }).errors ≠
      [⟨"phone", "Phone must be exactly 10 digits"⟩] := by
  constructor <;> decide

/-- Claim C2 as amended: only the first failing rule per field is
reported, but for the phone field the rule order is presence, then
digits-only (charset), then length — so when both the charset and the
length rule fail, the charset failure is the one reported. -/
theorem validateForm_phone_rule_order (b : FormBody) :
    ((validateForm b).errors.filter (fun e => e.field == "phone")
        = phoneErrors (fv b.phone))
    ∧ (fv b.phone ≠ [] → onlyDigits (fv b.phone) = false →
        phoneErrors (fv b.phone) = [⟨"phone", "Phone must contain only numbers"⟩])
    ∧ (fv b.phone ≠ [] → onlyDigits (fv b.phone) = true → (fv b.phone).length ≠ 10 →
        phoneErrors (fv b.phone) = [⟨"phone", "Phone must be exactly 10 digits"⟩]) := by
  refine ⟨?_, ?_, ?_⟩
  · simp [validateForm, List.filter_append, filter_phone_firstNameErrors,
          filter_phone_secondNameErrors, filter_phone_emailErrors,
          filter_phone_phoneErrors, filter_phone_eircodeErrors]
  · intro hne hdig
    have hemp : (fv b.phone).isEmpty = false := by
      cases h : fv b.phone with
      | nil => exact absurd h hne
      | cons c rest => rfl
    simp [phoneErrors, hemp, hdig]
  · intro hne hdig hlen
    have hemp : (fv b.phone).isEmpty = false := by
      cases h : fv b.phone with
      | nil => exact absurd h hne
      | cons c rest => rfl
    simp [phoneErrors, hemp, hdig, hlen]

/-- Witness for the amended C2 at the concrete phone value "abc". -/
theorem validateForm_phone_rule_order_witness :
    ((validateForm { phone := some "abc" }).errors.filter (fun e => e.field == "phone")
        = phoneErrors (fv (some "abc")))
    ∧ phoneErrors (fv (some "abc")) = [⟨"phone", "Phone must contain only numbers"⟩] :=
  ⟨(validateForm_phone_rule_order { phone := some "abc" }).1,
   (validateForm_phone_rule_order { phone := some "abc" }).2.1 (by decide) (by decide)⟩

theorem eircodeErrors_empty_iff (t : Str) :
    eircodeErrors t = [] ↔
      (t.length = 6 ∧ isAsciiDigit (t.headD ' ') = true ∧
        ∀ c ∈ t, isAlnumChar c = true) := by
  cases t with
  | nil => simp [eircodeErrors]
  | cons c rest =>
    by_cases hlen : (c :: rest).length = 6
    · by_cases hd : isAsciiDigit c = true
      · by_cases hal : (c :: rest).all isAlnumChar = true
        · simp_all [eircodeErrors, startsWithNumber, isAlphanumeric, List.all_eq_true]
        · simp_all [eircodeErrors, startsWithNumber, isAlphanumeric, List.all_eq_true]
      · simp_all [eircodeErrors, startsWithNumber]
    · simp_all [eircodeErrors]

/-- Claim C4: the eircode field accepts a value iff, after trimming,
its length is exactly 6, its first character is a decimal digit and
every character is alphanumeric; "A12345" and "1234A" are rejected. -/
theorem eircode_accept_iff :
    (∀ v : Str, eircodeErrors (trimChars v) = [] ↔
      ((trimChars v).length = 6 ∧ isAsciiDigit ((trimChars v).headD ' ') = true ∧
        ∀ c ∈ trimChars v, isAlnumChar c = true))
    ∧ eircodeErrors (trimChars "A12345".data) ≠ []
    ∧ eircodeErrors (trimChars "1234A".data) ≠ [] :=
  ⟨fun v => eircodeErrors_empty_iff (trimChars v), by decide, by decide⟩

/-!
Lemmas about `trimChars`.
-/

theorem trimChars_eq_rdropWhile (l : Str) :
    trimChars l = List.rdropWhile isWsChar (l.dropWhile isWsChar) := rfl

theorem dropWhile_prefix_self (p : Char → Bool) (m : Str) (hm : m.dropWhile p = m)
    (r t : Str) (ht : r ++ t = m) : r.dropWhile p = r := by
  subst ht
  cases r with
  | nil => rfl
  | cons a rs =>
    by_cases hpa : p a
    · rw [List.cons_append, List.dropWhile_cons, if_pos hpa] at hm
      have hlen := congrArg List.length hm
      have hle := (List.dropWhile_sublist (l := rs ++ t) p).length_le
      simp only [List.length_cons] at hlen
      omega
    · simp [List.dropWhile_cons, hpa]

theorem dropWhile_rdropWhile_dropWhile (p : Char → Bool) (l : Str) :
    (List.rdropWhile p (l.dropWhile p)).dropWhile p
      = List.rdropWhile p (l.dropWhile p) := by
  obtain ⟨t, ht⟩ := List.rdropWhile_prefix p (l.dropWhile p)
  exact dropWhile_prefix_self p (l.dropWhile p) (List.dropWhile_idempotent p l) _ t ht

/-- Trimming is idempotent: a trimmed string has no whitespace left at
either end. -/
theorem trimChars_idem (l : Str) : trimChars (trimChars l) = trimChars l := by
  rw [trimChars_eq_rdropWhile, trimChars_eq_rdropWhile,
      dropWhile_rdropWhile_dropWhile, List.rdropWhile_idempotent]

/-!
CSV batch importer of `src/index.js` (the `csv-parser` variant with
fixed required columns): validation helpers, row validation, and the
parameters `insertRow` binds.
-/

/-- Data row of the CSV importer: the five columns the importer reads.
A `none` field models a column absent from the CSV. -/
structure CsvRow where
  first_name : Option String := none
  last_name : Option String := none
  email : Option String := none
  age : Option String := none
  created_at : Option String := none
deriving DecidableEq

/-- Source `isNonEmptyString`: a string whose trimmed length is positive. -/
def isNonEmptyString (v : Option String) : Bool :=
  match v with
  | some s => !(trimChars s.data).isEmpty
  | none => false

/-- Source `isValidEmail` of the importer: rejects empty/absent values,
then runs the regex `^[^\s@]+@[^\s@]+\.[^\s@]+$` on the trimmed value. -/
def isValidEmailOpt (v : Option String) : Bool :=
  match v with
  | some s => !(trimChars s.data).isEmpty && isValidEmail (trimChars s.data)
  | none => false

/-- Digits of a decimal literal folded to a number; `none` when the
list is empty or holds a non-digit. -/
def parseDigits (l : Str) : Option Nat :=
  if l.isEmpty then none
  else if l.all isAsciiDigit then
    some (l.foldl (fun acc c => acc * 10 + (c.toNat - 48)) 0)
  else none

/-- Model of the JS `Number(...)` string coercion restricted to the
fragment this repository feeds it: after trimming, the empty string is
0 and an optionally signed run of decimal digits is that integer; every
other string maps to `none`, standing for a result that is not an
integer (NaN or a fractional number).  Fractional or exotic numeric
literals such as "2.5", "1e3" or "0x1A" never reach a theorem below. -/
def jsNumberInt (l : Str) : Option Int :=
  let t := trimChars l
  if t.isEmpty then some 0
  else match t with
  | '-' :: rest => (parseDigits rest).map (fun n => -(n : Int))
  | '+' :: rest => (parseDigits rest).map (fun n => (n : Int))
  | _ => (parseDigits t).map (fun n => (n : Int))

/-- Source `isValidIntOrEmpty`: undefined, null and blank values pass;
otherwise `Number.isInteger(Number(s))` on the trimmed value. -/
def isValidIntOrEmpty (v : Option String) : Bool :=
  match v with
  | none => true
  | some s =>
    let t := trimChars s.data
    t.isEmpty || (jsNumberInt t).isSome

/-- Shape `YYYY-MM-DD` required by the importer for `created_at`. -/
def dateShape (t : Str) : Bool :=
  match t with
  | [y1, y2, y3, y4, h1, m1, m2, h2, d1, d2] =>
      isAsciiDigit y1 && isAsciiDigit y2 && isAsciiDigit y3 && isAsciiDigit y4 &&
      h1 == '-' && isAsciiDigit m1 && isAsciiDigit m2 &&
      h2 == '-' && isAsciiDigit d1 && isAsciiDigit d2
  | _ => false

/-- Source `isValidDateOrEmpty`: undefined, null and blank values pass;
otherwise the regex `^\d{4}-\d{2}-\d{2}$` on the trimmed value. -/
def isValidDateOrEmpty (v : Option String) : Bool :=
  match v with
  | none => true
  | some s =>
    let t := trimChars s.data
    t.isEmpty || dateShape t

/-- Truthiness of the email cell as tested by `row.email &&`: present
and not the empty string (a whitespace-only string is truthy). -/
def emailTruthy (v : Option String) : Bool :=
  match v with
  | some s => !s.data.isEmpty
  | none => false

/-- Source `validateRow` of the importer (src/index.js lines 45-69):
presence of the three required columns, then the email, age and
created_at format checks, with the error strings pushed in program
order. -/
def validateRowCsv (r : CsvRow) : List String :=
  (if !isNonEmptyString r.first_name then ["Missing/empty required field: first_name"] else []) ++
  (if !isNonEmptyString r.last_name then ["Missing/empty required field: last_name"] else []) ++
  (if !isNonEmptyString r.email then ["Missing/empty required field: email"] else []) ++
  (if emailTruthy r.email && !isValidEmailOpt r.email then ["Invalid email format"] else []) ++
  (if !isValidIntOrEmpty r.age then ["age must be an integer (or empty)"] else []) ++
  (if !isValidDateOrEmpty r.created_at then ["created_at must be YYYY-MM-DD (or empty)"] else [])

/-- Values bound as statement parameters by the importer and by the
form service.  `vnan` models the JS NaN number, `vundef` the JS
undefined value. -/
inductive SqlVal where
  | vstr : Str → SqlVal
  | vint : Int → SqlVal
  | vnull : SqlVal
  | vnan : SqlVal
  | vundef : SqlVal
deriving DecidableEq

/-- Value of the source expression
`row.age?.trim() === "" ? null : Number(row.age)`: an absent cell feeds
`Number(undefined)` which is NaN; a blank cell becomes null; anything
else is the numeric coercion of the raw cell. -/
def ageParam (v : Option String) : SqlVal :=
  match v with
  | none => SqlVal.vnan
  | some s =>
    if (trimChars s.data).isEmpty then SqlVal.vnull
    else match jsNumberInt s.data with
      | some n => SqlVal.vint n
      | none => SqlVal.vnan

/-- Value of `row.x?.trim()` for the plain string columns. -/
def optTrimParam (v : Option String) : SqlVal :=
  match v with
  | some s => SqlVal.vstr (trimChars s.data)
  | none => SqlVal.vundef

/-- Source `insertRow` (src/index.js lines 72-95): the parameter list
bound to its INSERT statement, in column order.  When `created_at` is
absent the source expression `row.created_at.trim()` throws a TypeError
before any statement is issued; that case is modelled as `none`. -/
def insertRowParams (r : CsvRow) : Option (List SqlVal) :=
  match r.created_at with
  | none => none
  | some ca =>
    some [optTrimParam r.first_name, optTrimParam r.last_name, optTrimParam r.email,
          ageParam r.age,
          if (trimChars ca.data).isEmpty then SqlVal.vnull
          else SqlVal.vstr (trimChars ca.data)]

/-!
Theorems for claim C5 (trimming before validation and storage).
-/

/-- Body with every string field already trimmed. -/
def trimFormBody (b : FormBody) : FormBody :=
  { first_name := b.first_name.map (fun s => ⟨trimChars s.data⟩),
    second_name := b.second_name.map (fun s => ⟨trimChars s.data⟩),
    email := b.email.map (fun s => ⟨trimChars s.data⟩),
    phone := b.phone.map (fun s => ⟨trimChars s.data⟩),
    eircode := b.eircode.map (fun s => ⟨trimChars s.data⟩) }

theorem fv_trim (v : Option String) :
    fv (v.map (fun s => ⟨trimChars s.data⟩)) = fv v := by
  cases v with
  | none => rfl
  | some s => simp [fv, trimChars_idem]

/-- Counterexample for C5, in three parts.  First, a validation-passing
row whose `age` cell is " 25 " binds the number 25, not the trimmed
string "25".  Second, a validation-passing row whose `created_at` cell
is blank binds NULL, not the trimmed string.  Third, the importer's
email presence guard tests the raw value's truthiness, not the trimmed
one: a whitespace-only email draws the "Invalid email format" error
that an empty email does not. -/
theorem insertRow_age_not_a_trimmed_string :
    (validateRowCsv { first_name := some "Ann", last_name := some "Lee",
                      email := some "a@b.c", age := some " 25 ",
                      created_at := some "2024-01-02" } = []
     ∧ insertRowParams { first_name := some "Ann", last_name := some "Lee",
                         email := some "a@b.c", age := some " 25 ",
                         created_at := some "2024-01-02" } =
         some [SqlVal.vstr "Ann".data, SqlVal.vstr "Lee".data, SqlVal.vstr "a@b.c".data,
               SqlVal.vint 25, SqlVal.vstr "2024-01-02".data]
     ∧ SqlVal.vint 25 ≠ SqlVal.vstr (trimChars " 25 ".data))
    ∧ (validateRowCsv { first_name := some "Ann", last_name := some "Lee",
                        email := some "a@b.c", age := some "25",
                        created_at := some " " } = []
       ∧ insertRowParams { first_name := some "Ann", last_name := some "Lee",
                           email := some "a@b.c", age := some "25",
                           created_at := some " " } =
           some [SqlVal.vstr "Ann".data, SqlVal.vstr "Lee".data, SqlVal.vstr "a@b.c".data,
                 SqlVal.vint 25, SqlVal.vnull]
       ∧ SqlVal.vnull ≠ SqlVal.vstr (trimChars " ".data))
    ∧ validateRowCsv { first_name := some "Ann", last_name := some "Lee",
                       email := some " " } =
        ["Missing/empty required field: email", "Invalid email format"]
    ∧ validateRowCsv { first_name := some "Ann", last_name := some "Lee",
                       email := some "" } =
        ["Missing/empty required field: email"] :=
  ⟨⟨by decide, by decide, by decide⟩, ⟨by decide, by decide, by decide⟩,
   by decide, by decide⟩

/-- Claim C5 as amended: every string field is trimmed before its
validators run and every validator operates on the trimmed value — the
sole exception being the CSV importer's email presence guard, which
tests the raw value's truthiness — and the values handed to persistence
carry the trimmed strings for the form fields and for the CSV
first_name, last_name and email columns, while the CSV age column is
coerced to a number and a blank age or created_at cell is bound as NULL
(a nonblank created_at is bound as its trimmed string); neither the age
nor a blank created_at parameter is ever a string. -/
theorem trimmed_before_validation_and_storage :
    (∀ b : FormBody, validateForm (trimFormBody b) = validateForm b)
    ∧ (∀ b : FormBody, (validateForm b).values =
        ⟨fv b.first_name, fv b.second_name, fv b.email, fv b.phone, fv b.eircode⟩)
    ∧ (∀ s : String, isNonEmptyString (some ⟨trimChars s.data⟩) = isNonEmptyString (some s))
    ∧ (∀ s : String, isValidEmailOpt (some ⟨trimChars s.data⟩) = isValidEmailOpt (some s))
    ∧ (∀ s : String, isValidIntOrEmpty (some ⟨trimChars s.data⟩) = isValidIntOrEmpty (some s))
    ∧ (∀ s : String,
        isValidDateOrEmpty (some ⟨trimChars s.data⟩) = isValidDateOrEmpty (some s))
    ∧ (∀ fn ln em ag ca : String,
        insertRowParams { first_name := some fn, last_name := some ln,
                          email := some em, age := some ag, created_at := some ca } =
          some [SqlVal.vstr (trimChars fn.data), SqlVal.vstr (trimChars ln.data),
                SqlVal.vstr (trimChars em.data), ageParam (some ag),
                if (trimChars ca.data).isEmpty then SqlVal.vnull
                else SqlVal.vstr (trimChars ca.data)])
    ∧ (∀ (v : Option String) (s : Str), ageParam v ≠ SqlVal.vstr s)
    ∧ (∀ s : Str, SqlVal.vnull ≠ SqlVal.vstr s) := by
  refine ⟨?_, fun b => rfl, ?_, ?_, ?_, ?_, fun fn ln em ag ca => rfl, ?_, fun s => by simp⟩
  · intro b
    simp [validateForm, trimFormBody, fv_trim]
  · intro s
    simp [isNonEmptyString, trimChars_idem]
  · intro s
    simp [isValidEmailOpt, trimChars_idem]
  · intro s
    simp [isValidIntOrEmpty, trimChars_idem]
  · intro s
    simp [isValidDateOrEmpty, trimChars_idem]
  · intro v s
    cases v with
    | none => simp [ageParam]
    | some a =>
      simp only [ageParam]
      split_ifs with h
      · simp
      · cases hj : jsNumberInt a.data <;> simp

/-!
Batch run of the importer (src/index.js lines 98-153, claim C6).
-/

/-- One data event of the CSV stream: an invalid row bumps
invalidCount, a valid row bumps validCount and queues its insert. -/
def streamStep (acc : Nat × Nat × List CsvRow) (r : CsvRow) : Nat × Nat × List CsvRow :=
  if validateRowCsv r ≠ [] then (acc.1, acc.2.1 + 1, acc.2.2)
  else (acc.1 + 1, acc.2.1, acc.2.2 ++ [r])

/-- Reading phase of `run`: rows are validated in input order, giving
the counts and the queue of pending inserts at the end of the stream. -/
def streamRows (rows : List CsvRow) : Nat × Nat × List CsvRow :=
  rows.foldl streamStep (0, 0, [])

/-- Settling one queued insert.  `insertRow` fails deterministically
when building its parameters throws (`insertRowParams r = none`, the
absent-created_at TypeError); otherwise it succeeds iff the database
accepts the statement, which `outcome` models.  On any failure the
catch handler bumps invalidCount and drops validCount; on success the
row is persisted. -/
def settleStep (outcome : CsvRow → Bool) (acc : Nat × Nat × List CsvRow) (r : CsvRow) :
    Nat × Nat × List CsvRow :=
  if (insertRowParams r).isSome && outcome r then (acc.1, acc.2.1, acc.2.2 ++ [r])
  else (acc.1 - 1, acc.2.1 + 1, acc.2.2)

/-- Model of `run`: the stream phase, then the join of every queued
insert, whose database-level success or failure is given by `outcome`
(a parameter-construction throw fails regardless of `outcome`); the
reported tally and the persisted rows are read only after the join. -/
def runModel (rows : List CsvRow) (outcome : CsvRow → Bool) : Nat × Nat × List CsvRow :=
  let s := streamRows rows
  (s.2.2).foldl (settleStep outcome) (s.1, s.2.1, [])

def csvRowA : CsvRow :=
  { first_name := some "Ann", last_name := some "Lee", email := some "ann@x.ie",
    age := some "30", created_at := some "2024-01-02" }

def csvRowB : CsvRow :=
  { first_name := some "Bob", last_name := some "Fox", email := some "bob@y.ie",
    age := some "28", created_at := some "2024-02-03" }

def csvRowC : CsvRow :=
  { first_name := some "Cat", last_name := some "Orr", email := some "cat@z.ie",
    age := some "41", created_at := some "2024-03-04" }

/-- Row with the required email column missing. -/
def csvRowD : CsvRow := { first_name := some "Dan", last_name := some "Ash" }

/-- Row with the required email column missing. -/
def csvRowE : CsvRow := { first_name := some "Eve", last_name := some "Ivy" }

/-- CSV with 3 well-formed rows and 2 rows missing a required column. -/
def demoCsv : List CsvRow := [csvRowA, csvRowD, csvRowB, csvRowE, csvRowC]

/-- Claim C6: on a CSV with 3 well-formed rows and 2 rows missing a
required column, when every insert succeeds the importer reports
validCount 3 and invalidCount 2 and persists exactly the 3 valid rows
(the three valid rows build their insert parameters, so the
all-succeeding database outcome is an execution the program can
produce); the reported tally is a function of the settled outcome of
every queued insert, as the general conjunct shows. -/
theorem run_batch_tally (outcome : CsvRow → Bool) (hall : ∀ r, outcome r = true) :
    runModel demoCsv outcome = (3, 2, [csvRowA, csvRowB, csvRowC])
    ∧ (∀ g : CsvRow → Bool, runModel demoCsv g =
        (3 - (([csvRowA, csvRowB, csvRowC].filter (fun r => !g r)).length),
         2 + (([csvRowA, csvRowB, csvRowC].filter (fun r => !g r)).length),
         [csvRowA, csvRowB, csvRowC].filter g)) := by
  have h1 : streamRows demoCsv = (3, 2, [csvRowA, csvRowB, csvRowC]) := by decide
  have hpA : (insertRowParams csvRowA).isSome = true := by decide
  have hpB : (insertRowParams csvRowB).isSome = true := by decide
  have hpC : (insertRowParams csvRowC).isSome = true := by decide
  constructor
  · simp [runModel, h1, settleStep, hall, hpA, hpB, hpC]
  · intro g
    simp only [runModel, h1]
    cases hA : g csvRowA <;> cases hB : g csvRowB <;> cases hC : g csvRowC <;>
      simp [settleStep, hA, hB, hC, hpA, hpB, hpC]

/-- Witness for C6 with the always-succeeding insert outcome. -/
theorem run_batch_tally_witness :
    runModel demoCsv (fun _ => true) = (3, 2, [csvRowA, csvRowB, csvRowC]) :=
  (run_batch_tally (fun _ => true) (fun _ => rfl)).1

/-!
Persistence gateway `insertMany` (src/database.js lines 80-103, claim C7).
-/

/-- Rows of the dynamic CSV table, one list of values per row. -/
abbrev DbRow := List Str

/-- Transaction buffer of one connection. -/
structure Txn where
  buffer : List DbRow
deriving DecidableEq

/-- Source `conn.beginTransaction()`: a fresh empty buffer. -/
def beginTxn : Txn := ⟨[]⟩

/-- Bulk `INSERT ... VALUES ?` inside the transaction: on success the
rows enter the buffer and `affectedRows` is their number; `stmtOk`
says whether the statement fails at the database. -/
def execBulkInsert (t : Txn) (rows : List DbRow) (stmtOk : Bool) :
    Except String (Txn × Nat) :=
  if stmtOk then Except.ok (⟨t.buffer ++ rows⟩, rows.length)
  else Except.error "bulk insert failed"

/-- Source `conn.commit()`: the buffer becomes durable. -/
def commitTxn (committed : List DbRow) (t : Txn) : List DbRow :=
  committed ++ t.buffer

/-- Source `conn.rollback()`: the buffer is discarded. -/
def rollbackTxn (committed : List DbRow) (_ : Txn) : List DbRow :=
  committed

/-- Source `insertMany` (src/database.js lines 80-103): an empty rows
array returns `{inserted: 0}` without opening a transaction; otherwise
one transaction wraps one bulk statement, committed on success with
`affectedRows || rowsArray.length` returned, rolled back with the error
rethrown on failure. -/
def insertManyModel (committed : List DbRow) (rows : List DbRow) (stmtOk : Bool) :
    List DbRow × Except String Nat :=
  if rows.isEmpty then (committed, Except.ok 0)
  else
    match execBulkInsert beginTxn rows stmtOk with
    | Except.ok (t, n) =>
        (commitTxn committed t, Except.ok (if n = 0 then rows.length else n))
    | Except.error e => (rollbackTxn committed beginTxn, Except.error e)

/-- Claim C7: `insertMany` wraps the batch in one transaction — on a
statement-level failure nothing of the batch is persisted and the error
is rethrown; on success it returns the count of inserted rows; an empty
rows array returns a count of 0. -/
theorem insertMany_transactional (committed rows : List DbRow) (stmtOk : Bool) :
    (rows = [] → insertManyModel committed rows stmtOk = (committed, Except.ok 0))
    ∧ (stmtOk = false → (insertManyModel committed rows stmtOk).1 = committed
        ∧ (rows ≠ [] → insertManyModel committed rows stmtOk
            = (committed, Except.error "bulk insert failed")))
    ∧ (stmtOk = true → rows ≠ [] →
        insertManyModel committed rows stmtOk
          = (committed ++ rows, Except.ok rows.length)) := by
  refine ⟨?_, ?_, ?_⟩
  · intro h; subst h; rfl
  · intro h; subst h
    constructor
    · by_cases he : rows.isEmpty <;>
        simp [insertManyModel, execBulkInsert, rollbackTxn, he]
    · intro hne
      have he : rows.isEmpty = false := by
        cases rows with
        | nil => exact absurd rfl hne
        | cons a t => rfl
      simp [insertManyModel, execBulkInsert, rollbackTxn, he]
  · intro h hne; subst h
    have he : rows.isEmpty = false := by
      cases rows with
      | nil => exact absurd rfl hne
      | cons a t => rfl
    simp [insertManyModel, execBulkInsert, commitTxn, beginTxn, he]

/-- Witness for C7 at concrete batches: the empty batch, a failing
batch and a succeeding batch. -/
theorem insertMany_transactional_witness :
    insertManyModel [] [] true = ([], Except.ok 0)
    ∧ insertManyModel [["a".data]] [["b".data]] false
        = ([["a".data]], Except.error "bulk insert failed")
    ∧ insertManyModel [] [["b".data]] true = ([["b".data]], Except.ok 1) :=
  ⟨(insertMany_transactional [] [] true).1 rfl,
   ((insertMany_transactional [["a".data]] [["b".data]] false).2.1 rfl).2 (by decide),
   by simpa using (insertMany_transactional [] [["b".data]] true).2.2 rfl (by decide)⟩

/-!
Persisted schema for form submissions (claim C8).  The CREATE TABLE
texts of the repository are transcribed as declarative table shapes:
`notNull` records an explicit NOT NULL in the DDL.
-/

structure ColumnDef where
  name : String
  sqlType : String
  notNull : Bool
  autoIncrement : Bool
  defaultCurrentTimestamp : Bool
deriving DecidableEq

structure TableDef where
  tableName : String
  columns : List ColumnDef
  primaryKey : List String
  uniqueKeys : List (String × List String)
deriving DecidableEq

/-- Table `form_submissions` as declared in src/mysql_table.sql lines
4-13: the canonical persisted shape, with the UNIQUE KEY uq_email. -/
def formSubmissionsCanonical : TableDef :=
  { tableName := "form_submissions",
    columns :=
      [⟨"id", "INT UNSIGNED", true, true, false⟩,
       ⟨"first_name", "VARCHAR(100)", true, false, false⟩,
       ⟨"second_name", "VARCHAR(100)", true, false, false⟩,
       ⟨"email", "VARCHAR(255)", true, false, false⟩,
       ⟨"phone", "VARCHAR(20)", true, false, false⟩,
       ⟨"eircode", "VARCHAR(6)", true, false, false⟩,
       ⟨"created_at", "TIMESTAMP", true, false, true⟩],
    primaryKey := ["id"],
    uniqueKeys := [("uq_email", ["email"])] }

/-- Table `form_submissions` as declared by the CREATE TABLE statement
of `createFormTableIfNotExists` (src/unnamed/part_001 lines 81-95):
same columns, but no UNIQUE key and no explicit NOT NULL on
created_at. -/
def formSubmissionsGateway : TableDef :=
  { tableName := "form_submissions",
    columns :=
      [⟨"id", "INT UNSIGNED", true, true, false⟩,
       ⟨"first_name", "VARCHAR(100)", true, false, false⟩,
       ⟨"second_name", "VARCHAR(100)", true, false, false⟩,
       ⟨"email", "VARCHAR(255)", true, false, false⟩,
       ⟨"phone", "VARCHAR(20)", true, false, false⟩,
       ⟨"eircode", "VARCHAR(6)", true, false, false⟩,
       ⟨"created_at", "TIMESTAMP", false, false, true⟩],
    primaryKey := ["id"],
    uniqueKeys := [] }

/-- Table `mysql_table` as declared by `ensureSchema` (src/database.js
lines 23-36): a different table name and column set, also without any
UNIQUE key. -/
def ensureSchemaTable : TableDef :=
  { tableName := "mysql_table",
    columns :=
      [⟨"id", "INT", false, true, false⟩,
       ⟨"first_name", "VARCHAR(20)", true, false, false⟩,
       ⟨"second_name", "VARCHAR(20)", true, false, false⟩,
       ⟨"email", "VARCHAR(120)", true, false, false⟩,
       ⟨"phone_number", "CHAR(10)", true, false, false⟩,
       ⟨"eircode", "CHAR(6)", true, false, false⟩,
       ⟨"created_at", "TIMESTAMP", false, false, true⟩],
    primaryKey := ["id"],
    uniqueKeys := [] }

/-- Counterexample for C8: neither table-creation statement executed by
the persistence gateway declares the email UNIQUE constraint that the
canonical schema carries. -/
theorem gateway_lacks_unique_email :
    formSubmissionsCanonical.uniqueKeys = [("uq_email", ["email"])]
    ∧ formSubmissionsGateway.uniqueKeys = []
    ∧ ensureSchemaTable.uniqueKeys = []
    ∧ formSubmissionsGateway ≠ formSubmissionsCanonical :=
  ⟨rfl, rfl, rfl, by decide⟩

/-- Claim C8 as amended: the canonical `form_submissions` table has an
auto-increment id primary key, the five data columns, a created_at
column defaulting to the current time and a UNIQUE constraint on email;
the gateway's creation statement declares the same table name, column
names, column types and primary key, but omits the email UNIQUE
constraint (and the explicit NOT NULL on created_at). -/
theorem form_table_shape :
    formSubmissionsCanonical.columns.map (fun c => c.name) =
      ["id", "first_name", "second_name", "email", "phone", "eircode", "created_at"]
    ∧ (formSubmissionsCanonical.columns.filter (fun c => c.autoIncrement)).map
        (fun c => c.name) = ["id"]
    ∧ formSubmissionsCanonical.primaryKey = ["id"]
    ∧ (formSubmissionsCanonical.columns.filter (fun c => c.defaultCurrentTimestamp)).map
        (fun c => c.name) = ["created_at"]
    ∧ formSubmissionsCanonical.uniqueKeys = [("uq_email", ["email"])]
    ∧ formSubmissionsGateway.tableName = formSubmissionsCanonical.tableName
    ∧ formSubmissionsGateway.columns.map (fun c => (c.name, c.sqlType)) =
        formSubmissionsCanonical.columns.map (fun c => (c.name, c.sqlType))
    ∧ formSubmissionsGateway.primaryKey = formSubmissionsCanonical.primaryKey
    ∧ formSubmissionsGateway.uniqueKeys = [] :=
  ⟨rfl, rfl, rfl, rfl, rfl, rfl, rfl, rfl, rfl⟩

/-!
Header normalizer `toSnakeCase` of the bulk importer
(src/index.js lines 170-179, claim C9).  Each regex replacement pass is
one recursive function; the passes run in source order.
-/

theorem char_toNat_ofNat {n : Nat} (h : n < 0xd800) : (Char.ofNat n).toNat = n := by
  unfold Char.ofNat
  rw [dif_pos (Or.inl h)]
  rfl

theorem char_toNat_inj {a b : Char} (h : a.toNat = b.toNat) : a = b := by
  apply Char.ext
  exact UInt32.toNat.inj h

/-- Pass `replace(/\s+/g, "_")`: each maximal run of whitespace becomes
one underscore.  The flag says whether the scan stands inside a
whitespace run whose underscore has already been emitted. -/
def wsRunsPass : Str → Bool → Str
  | [], _ => []
  | c :: rest, inRun =>
    if isWsChar c then
      if inRun then wsRunsPass rest true else '_' :: wsRunsPass rest true
    else c :: wsRunsPass rest false

/-- Pass `replace(/[^\w]/g, "_")`: every non-word character becomes an
underscore. -/
def nonWordPass (l : Str) : Str :=
  l.map (fun c => if isWordChar c then c else '_')

/-- Pass `replace(/([a-z0-9])([A-Z])/g, "$1_$2")`: an underscore is
inserted at each camelCase boundary; after a match the scan resumes
after the matched pair. -/
def camelPass : Str → Str
  | c1 :: c2 :: rest =>
    if (isAsciiLowerChar c1 || isAsciiDigit c1) && isAsciiUpperChar c2 then
      c1 :: '_' :: c2 :: camelPass rest
    else
      c1 :: camelPass (c2 :: rest)
  | l => l

/-- Pass `replace(/__+/g, "_")`: each maximal run of underscores
becomes one underscore. -/
def underscorePass : Str → Bool → Str
  | [], _ => []
  | c :: rest, inRun =>
    if c == '_' then
      if inRun then underscorePass rest true else '_' :: underscorePass rest true
    else c :: underscorePass rest false

/-- Pass `replace(/^_+|_+$/g, "")`: the leading and the trailing
underscore runs are removed. -/
def edgeUnderscorePass (l : Str) : Str :=
  List.rdropWhile (fun c => c == '_') (l.dropWhile (fun c => c == '_'))

/-- Model of JS `toLowerCase` on the ASCII strings the earlier passes
produce. -/
def asciiLower (c : Char) : Char :=
  if isAsciiUpperChar c then Char.ofNat (c.toNat + 32) else c

/-- Source `toSnakeCase` (src/index.js lines 170-179): trim, whitespace
runs to underscores, non-word characters to underscores, camelCase
splitting, underscore-run collapsing, edge-underscore stripping, then
lower-casing. -/
def toSnakeCase (l : Str) : Str :=
  (edgeUnderscorePass
    (underscorePass
      (camelPass (nonWordPass (wsRunsPass (trimChars l) false))) false)).map asciiLower

example : toSnakeCase " First Name ".data = "first_name".data := by decide

example : toSnakeCase "EmailAddress".data = "email_address".data := by decide

example : toSnakeCase "Phone-Number (mobile)".data = "phone_number_mobile".data := by decide

example : toSnakeCase "__a__B__".data = "a_b".data := by decide

theorem mem_nonWordPass (l : Str) : ∀ c ∈ nonWordPass l, isWordChar c = true := by
  intro c hc
  rcases List.mem_map.mp hc with ⟨x, _, hx⟩
  by_cases h : isWordChar x = true
  · rw [← hx]; simp [h]
  · rw [← hx]; simp [h]; rfl

theorem mem_camelPass : ∀ l : Str, ∀ c ∈ camelPass l, c ∈ l ∨ c = '_'
  | [] => by simp [camelPass]
  | [a] => by simp [camelPass]
  | c1 :: c2 :: rest => by
    by_cases h : ((isAsciiLowerChar c1 || isAsciiDigit c1) && isAsciiUpperChar c2) = true
    · rw [camelPass, if_pos h]
      intro c hc
      simp only [List.mem_cons] at hc ⊢
      rcases hc with hc | hc | hc | hc
      · exact Or.inl (Or.inl hc)
      · exact Or.inr hc
      · exact Or.inl (Or.inr (Or.inl hc))
      · rcases mem_camelPass rest c hc with h2 | h2
        · exact Or.inl (Or.inr (Or.inr h2))
        · exact Or.inr h2
    · rw [camelPass, if_neg h]
      intro c hc
      simp only [List.mem_cons] at hc ⊢
      rcases hc with hc | hc
      · exact Or.inl (Or.inl hc)
      · rcases mem_camelPass (c2 :: rest) c hc with h2 | h2
        · simp only [List.mem_cons] at h2
          rcases h2 with h2 | h2
          · exact Or.inl (Or.inr (Or.inl h2))
          · exact Or.inl (Or.inr (Or.inr h2))
        · exact Or.inr h2

theorem mem_underscorePass :
    ∀ (l : Str) (b : Bool), ∀ c ∈ underscorePass l b, c ∈ l ∨ c = '_' := by
  intro l
  induction l with
  | nil => intro b c hc; simp [underscorePass] at hc
  | cons a rest ih =>
    intro b c hc
    rw [underscorePass] at hc
    by_cases ha : (a == '_') = true
    · rw [if_pos ha] at hc
      have ha2 : a = '_' := by simpa using ha
      cases b with
      | true =>
        simp only [if_pos rfl] at hc
        rcases ih true c hc with h2 | h2
        · exact Or.inl (List.mem_cons_of_mem _ h2)
        · exact Or.inr h2
      | false =>
        simp only [Bool.false_eq_true, if_false] at hc
        rcases List.mem_cons.mp hc with h2 | h2
        · exact Or.inr h2
        · rcases ih true c h2 with h3 | h3
          · exact Or.inl (List.mem_cons_of_mem _ h3)
          · exact Or.inr h3
    · rw [if_neg ha] at hc
      rcases List.mem_cons.mp hc with h2 | h2
      · exact Or.inl (by simp [h2])
      · rcases ih false c h2 with h3 | h3
        · exact Or.inl (List.mem_cons_of_mem _ h3)
        · exact Or.inr h3

theorem mem_edgeUnderscorePass (l : Str) : ∀ c ∈ edgeUnderscorePass l, c ∈ l := by
  intro c hc
  have h1 : edgeUnderscorePass l <+: l.dropWhile (fun c => c == '_') :=
    List.rdropWhile_prefix _ _
  have h2 : l.dropWhile (fun c => c == '_') <:+ l := List.dropWhile_suffix _
  exact h2.sublist.subset (h1.sublist.subset hc)

theorem edgeUnderscorePass_contained (l : Str) : edgeUnderscorePass l <:+: l :=
  ((List.rdropWhile_prefix _ _).isInfix).trans (List.dropWhile_suffix _).isInfix

/-- Character-class facts about the canonical output alphabet: a
lowercase letter, a digit or an underscore is never whitespace, is a
word character, and is not an uppercase letter. -/
theorem canonicalChar_classes (c : Char)
    (h : isAsciiLowerChar c = true ∨ isAsciiDigit c = true ∨ c = '_') :
    isWsChar c = false ∧ isWordChar c = true ∧ isAsciiUpperChar c = false := by
  rcases h with h | h | h
  · simp only [isAsciiLowerChar, Bool.and_eq_true, decide_eq_true_eq] at h
    refine ⟨?_, ?_, ?_⟩
    · simp only [isWsChar, Bool.or_eq_false_iff, Bool.and_eq_false_iff,
        beq_eq_false_iff_ne, ne_eq, decide_eq_false_iff_not]
      omega
    · simp only [isWordChar, isAlnumChar, isAsciiLowerChar, Bool.or_eq_true,
        Bool.and_eq_true, decide_eq_true_eq]
      omega
    · simp only [isAsciiUpperChar, Bool.and_eq_false_iff, decide_eq_false_iff_not]
      omega
  · simp only [isAsciiDigit, Bool.and_eq_true, decide_eq_true_eq] at h
    refine ⟨?_, ?_, ?_⟩
    · simp only [isWsChar, Bool.or_eq_false_iff, Bool.and_eq_false_iff,
        beq_eq_false_iff_ne, ne_eq, decide_eq_false_iff_not]
      omega
    · simp only [isWordChar, isAlnumChar, isAsciiDigit, Bool.or_eq_true,
        Bool.and_eq_true, decide_eq_true_eq]
      omega
    · simp only [isAsciiUpperChar, Bool.and_eq_false_iff, decide_eq_false_iff_not]
      omega
  · subst h
    refine ⟨rfl, rfl, rfl⟩

/-- Lower-casing a word character lands in the canonical alphabet. -/
theorem asciiLower_wordChar (c : Char) (h : isWordChar c = true) :
    isAsciiLowerChar (asciiLower c) = true ∨ isAsciiDigit (asciiLower c) = true ∨
      asciiLower c = '_' := by
  simp only [isWordChar, isAlnumChar, Bool.or_eq_true] at h
  rcases h with ((hu | hl) | hd) | hu
  · left
    have hb : isAsciiUpperChar c = true := hu
    simp only [isAsciiUpperChar, Bool.and_eq_true, decide_eq_true_eq] at hb
    have hv : c.toNat + 32 < 0xd800 := by omega
    simp only [asciiLower, if_pos hu, isAsciiLowerChar, Bool.and_eq_true,
      decide_eq_true_eq, char_toNat_ofNat hv]
    omega
  · left
    have hb : isAsciiLowerChar c = true := hl
    simp only [isAsciiLowerChar, Bool.and_eq_true, decide_eq_true_eq] at hb
    have hup : isAsciiUpperChar c = false := by
      simp only [isAsciiUpperChar, Bool.and_eq_false_iff, decide_eq_false_iff_not]
      omega
    simp only [asciiLower, hup, Bool.false_eq_true, if_false]
    exact hl
  · right; left
    have hb : isAsciiDigit c = true := hd
    simp only [isAsciiDigit, Bool.and_eq_true, decide_eq_true_eq] at hb
    have hup : isAsciiUpperChar c = false := by
      simp only [isAsciiUpperChar, Bool.and_eq_false_iff, decide_eq_false_iff_not]
      omega
    simp only [asciiLower, hup, Bool.false_eq_true, if_false]
    exact hd
  · right; right
    have hc : c = '_' := by simpa using hu
    subst hc
    rfl

/-- Lower-casing maps only the underscore to the underscore. -/
theorem asciiLower_eq_underscore (c : Char) : asciiLower c = '_' ↔ c = '_' := by
  constructor
  · intro h
    by_cases hu : isAsciiUpperChar c = true
    · exfalso
      have hb := hu
      simp only [isAsciiUpperChar, Bool.and_eq_true, decide_eq_true_eq] at hb
      have hv : c.toNat + 32 < 0xd800 := by omega
      have := congrArg Char.toNat h
      rw [asciiLower, if_pos hu, char_toNat_ofNat hv] at this
      have h95 : ('_' : Char).toNat = 95 := rfl
      omega
    · rw [asciiLower, if_neg hu] at h
      exact h
  · intro h; subst h; rfl

/-- Relation of the no-double-underscore invariant. -/
def noDoubleUnd (a b : Char) : Prop := ¬(a = '_' ∧ b = '_')

theorem underscorePass_head_true (l : Str) :
    ∀ a ∈ (underscorePass l true).head?, a ≠ '_' := by
  induction l with
  | nil => intro a ha; simp [underscorePass] at ha
  | cons c rest ih =>
    intro a ha
    rw [underscorePass] at ha
    by_cases hc : (c == '_') = true
    · rw [if_pos hc, if_pos rfl] at ha
      exact ih a ha
    · rw [if_neg hc] at ha
      simp only [List.head?_cons, Option.mem_def, Option.some.injEq] at ha
      subst ha
      simpa using hc

theorem underscorePass_chain (l : Str) (b : Bool) :
    List.Chain' noDoubleUnd (underscorePass l b) := by
  induction l generalizing b with
  | nil => simp [underscorePass]
  | cons c rest ih =>
    rw [underscorePass]
    by_cases hc : (c == '_') = true
    · rw [if_pos hc]
      cases b with
      | true => rw [if_pos rfl]; exact ih true
      | false =>
        simp only [Bool.false_eq_true, if_false]
        rw [List.chain'_cons']
        refine ⟨?_, ih true⟩
        intro y hy
        have := underscorePass_head_true rest y hy
        intro hcon
        exact this hcon.2
    · rw [if_neg hc]
      rw [List.chain'_cons']
      refine ⟨?_, ih false⟩
      intro y hy hcon
      exact absurd (by simp [hcon.1]) hc

theorem dropWhile_eq_self_of_head (p : Char → Bool) (r : Str)
    (h : ∀ a ∈ r.head?, p a = false) : r.dropWhile p = r := by
  cases r with
  | nil => rfl
  | cons a t => rw [List.dropWhile_cons, if_neg (by simp [h a rfl])]

theorem head_false_of_dropWhile_self (p : Char → Bool) (r : Str)
    (h : r.dropWhile p = r) : ∀ a ∈ r.head?, p a = false := by
  cases r with
  | nil => intro a ha; simp at ha
  | cons a t =>
    intro x hx
    simp only [List.head?_cons, Option.mem_def, Option.some.injEq] at hx
    rw [← hx]
    by_cases hp : p a = true
    · rw [List.dropWhile_cons, if_pos hp] at h
      have hlen := congrArg List.length h
      have hle := (List.dropWhile_sublist (l := t) p).length_le
      simp only [List.length_cons] at hlen
      omega
    · simpa using hp

theorem toSnakeCase_mem (l : Str) :
    ∀ c ∈ toSnakeCase l, isAsciiLowerChar c = true ∨ isAsciiDigit c = true ∨ c = '_' := by
  intro c hc
  rcases List.mem_map.mp hc with ⟨x, hx, rfl⟩
  apply asciiLower_wordChar
  have hx2 := mem_edgeUnderscorePass _ x hx
  rcases mem_underscorePass _ false x hx2 with hx3 | hx3
  · rcases mem_camelPass _ x hx3 with hx4 | hx4
    · exact mem_nonWordPass _ x hx4
    · subst hx4; rfl
  · subst hx3; rfl

theorem toSnakeCase_head (l : Str) : (toSnakeCase l).head? ≠ some '_' := by
  intro hcon
  rw [toSnakeCase, List.head?_map] at hcon
  cases hhe : (edgeUnderscorePass
      (underscorePass
        (camelPass (nonWordPass (wsRunsPass (trimChars l) false))) false)).head? with
  | none => rw [hhe] at hcon; simp at hcon
  | some a =>
    rw [hhe] at hcon
    simp only [Option.map_some'] at hcon
    have ha : a = '_' := (asciiLower_eq_underscore a).mp (Option.some.inj hcon)
    have hd := dropWhile_rdropWhile_dropWhile (fun c => c == '_')
      (underscorePass (camelPass (nonWordPass (wsRunsPass (trimChars l) false))) false)
    have := head_false_of_dropWhile_self _ _ hd a
      (show a ∈ (edgeUnderscorePass
        (underscorePass
          (camelPass (nonWordPass (wsRunsPass (trimChars l) false))) false)).head? by
        rw [hhe]; rfl)
    rw [ha] at this
    simp at this

theorem toSnakeCase_last (l : Str) : (toSnakeCase l).getLast? ≠ some '_' := by
  intro hcon
  rw [toSnakeCase, List.getLast?_map] at hcon
  cases hhe : (edgeUnderscorePass
      (underscorePass
        (camelPass (nonWordPass (wsRunsPass (trimChars l) false))) false)).getLast? with
  | none => rw [hhe] at hcon; simp at hcon
  | some a =>
    rw [hhe] at hcon
    simp only [Option.map_some'] at hcon
    have ha : a = '_' := (asciiLower_eq_underscore a).mp (Option.some.inj hcon)
    have hne : edgeUnderscorePass
        (underscorePass
          (camelPass (nonWordPass (wsRunsPass (trimChars l) false))) false) ≠ [] := by
      intro hnil
      rw [hnil] at hhe
      simp at hhe
    have hlast : ¬((edgeUnderscorePass
        (underscorePass
          (camelPass (nonWordPass (wsRunsPass (trimChars l) false))) false)).getLast hne
            == '_') = true :=
      List.rdropWhile_last_not (fun c => c == '_')
        ((underscorePass
          (camelPass (nonWordPass (wsRunsPass (trimChars l) false))) false).dropWhile
            (fun c => c == '_')) hne
    rw [List.getLast?_eq_getLast _ hne] at hhe
    have := Option.some.inj hhe
    rw [this, ha] at hlast
    simp at hlast

theorem toSnakeCase_chain (l : Str) : List.Chain' noDoubleUnd (toSnakeCase l) := by
  have h1 : List.Chain' noDoubleUnd
      (underscorePass
        (camelPass (nonWordPass (wsRunsPass (trimChars l) false))) false) :=
    underscorePass_chain _ _
  have h2 := h1.infix (edgeUnderscorePass_contained _)
  rw [toSnakeCase, List.chain'_map]
  exact h2.imp (fun a b hab hcon =>
    hab ⟨(asciiLower_eq_underscore a).mp hcon.1, (asciiLower_eq_underscore b).mp hcon.2⟩)

theorem trimChars_of_no_ws (x : Str) (h : ∀ c ∈ x, isWsChar c = false) :
    trimChars x = x := by
  rw [trimChars_eq_rdropWhile]
  rw [dropWhile_eq_self_of_head _ _ (fun a ha => h a (List.mem_of_mem_head? ha))]
  rw [List.rdropWhile_eq_self_iff]
  intro hl
  have := h (x.getLast hl) (List.getLast_mem hl)
  simp [this]

theorem wsRunsPass_of_no_ws (x : Str) (h : ∀ c ∈ x, isWsChar c = false) :
    ∀ b, wsRunsPass x b = x := by
  induction x with
  | nil => intro b; rfl
  | cons a t ih =>
    intro b
    rw [wsRunsPass, if_neg (by simp [h a (List.mem_cons_self a t)])]
    rw [ih (fun c hc => h c (List.mem_cons_of_mem _ hc)) false]

theorem nonWordPass_of_word (x : Str) (h : ∀ c ∈ x, isWordChar c = true) :
    nonWordPass x = x :=
  calc x.map (fun c => if isWordChar c then c else '_')
      = x.map id := List.map_congr_left (fun a ha => by simp [h a ha])
    _ = x := List.map_id x

theorem camelPass_of_no_upper :
    ∀ x : Str, (∀ c ∈ x, isAsciiUpperChar c = false) → camelPass x = x
  | [] => fun _ => rfl
  | [a] => fun _ => rfl
  | c1 :: c2 :: rest => fun h => by
    rw [camelPass,
        if_neg (by simp [h c2 (List.mem_cons_of_mem _ (List.mem_cons_self _ _))]),
        camelPass_of_no_upper (c2 :: rest) (fun c hc => h c (List.mem_cons_of_mem _ hc))]

theorem underscorePass_of_chain (x : Str) :
    ∀ b : Bool, List.Chain' noDoubleUnd x →
      (b = true → ∀ a ∈ x.head?, a ≠ '_') → underscorePass x b = x := by
  induction x with
  | nil => intro b _ _; rfl
  | cons c rest ih =>
    intro b hch hb
    rw [List.chain'_cons'] at hch
    rw [underscorePass]
    by_cases hc : (c == '_') = true
    · have hc2 : c = '_' := by simpa using hc
      rw [if_pos hc]
      cases b with
      | true => exact absurd hc2 (hb rfl c rfl)
      | false =>
        simp only [Bool.false_eq_true, if_false]
        rw [ih true hch.2 (fun _ a ha hcon => (hch.1 a ha) ⟨hc2, hcon⟩), hc2]
    · rw [if_neg hc]
      rw [ih false hch.2 (fun hfalse => absurd hfalse (by simp))]

theorem edgeUnderscorePass_of_clean (x : Str)
    (hh : ∀ a ∈ x.head?, a ≠ '_') (hl : ∀ a ∈ x.getLast?, a ≠ '_') :
    edgeUnderscorePass x = x := by
  rw [edgeUnderscorePass]
  rw [dropWhile_eq_self_of_head _ _ (fun a ha => by simpa using hh a ha)]
  rw [List.rdropWhile_eq_self_iff]
  intro hne
  have := hl (x.getLast hne) (by rw [List.getLast?_eq_getLast _ hne]; rfl)
  simp [this]

theorem map_asciiLower_id (x : Str)
    (h : ∀ c ∈ x, isAsciiLowerChar c = true ∨ isAsciiDigit c = true ∨ c = '_') :
    x.map asciiLower = x :=
  calc x.map asciiLower
      = x.map id := List.map_congr_left (fun a ha => by
          have hup := (canonicalChar_classes a (h a ha)).2.2
          simp [asciiLower, hup])
    _ = x := List.map_id x

/-- Claim C9: the header normalizer outputs a canonical
lowercase-underscore identifier — only lowercase ASCII letters, digits
and underscores, with no leading or trailing underscore and no two
adjacent underscores — and the normalizer is idempotent. -/
theorem toSnakeCase_canonical (l : Str) :
    (∀ c ∈ toSnakeCase l, isAsciiLowerChar c = true ∨ isAsciiDigit c = true ∨ c = '_')
    ∧ (toSnakeCase l).head? ≠ some '_'
    ∧ (toSnakeCase l).getLast? ≠ some '_'
    ∧ List.Chain' noDoubleUnd (toSnakeCase l)
    ∧ toSnakeCase (toSnakeCase l) = toSnakeCase l := by
  refine ⟨toSnakeCase_mem l, toSnakeCase_head l, toSnakeCase_last l, toSnakeCase_chain l, ?_⟩
  have hmem := toSnakeCase_mem l
  have hws : ∀ c ∈ toSnakeCase l, isWsChar c = false :=
    fun c hc => (canonicalChar_classes c (hmem c hc)).1
  have hword : ∀ c ∈ toSnakeCase l, isWordChar c = true :=
    fun c hc => (canonicalChar_classes c (hmem c hc)).2.1
  have hup : ∀ c ∈ toSnakeCase l, isAsciiUpperChar c = false :=
    fun c hc => (canonicalChar_classes c (hmem c hc)).2.2
  have hhead : ∀ a ∈ (toSnakeCase l).head?, a ≠ '_' := by
    intro a ha hcon
    subst hcon
    exact toSnakeCase_head l ha
  have hlast : ∀ a ∈ (toSnakeCase l).getLast?, a ≠ '_' := by
    intro a ha hcon
    subst hcon
    exact toSnakeCase_last l ha
  show (edgeUnderscorePass
    (underscorePass
      (camelPass (nonWordPass (wsRunsPass (trimChars (toSnakeCase l)) false))) false)).map
        asciiLower = toSnakeCase l
  rw [trimChars_of_no_ws _ hws, wsRunsPass_of_no_ws _ hws false, nonWordPass_of_word _ hword,
      camelPass_of_no_upper _ hup,
      underscorePass_of_chain _ false (toSnakeCase_chain l)
        (fun hfalse => absurd hfalse (by simp)),
      edgeUnderscorePass_of_clean _ hhead hlast,
      map_asciiLower_id _ hmem]

/-!
SQL texts issued by the persistence layer (claim C1).
-/

/-- Column name quoted with backticks, as in the source templates. -/
def backtickQuote (c : String) : String := "`" ++ c ++ "`"

/-- String form of the header normalizer, as applied to every CSV
header before it is used as a column name. -/
def toSnakeCaseStr (s : String) : String := ⟨toSnakeCase s.data⟩

/-- SQL text built by `insertMany` (src/database.js lines 91-92): the
snake-cased header names are spliced into the statement text. -/
def insertManySqlText (columnNames : List String) : String :=
  "INSERT INTO `mysql_table` ("
    ++ String.intercalate ", " (columnNames.map backtickQuote)
    ++ ") VALUES ?"

/-- SQL text built by `createTableIfNotExists` (src/database.js lines
64-70): the snake-cased header names are spliced into the statement
text. -/
def createTableSqlText (columnNames : List String) : String :=
  "\n    CREATE TABLE IF NOT EXISTS `mysql_table` (\n      id INT AUTO_INCREMENT PRIMARY KEY,\n      "
    ++ String.intercalate ",\n  "
        (columnNames.map (fun col => backtickQuote col ++ " VARCHAR(255)"))
    ++ "\n    ) ENGINE=InnoDB DEFAULT CHARSET=utf8mb4;\n  "

/-- SQL text of `insertFormRow` (src/unnamed/part_001 line 99): a fixed
statement with five placeholders. -/
def insertFormRowSqlText : String :=
  "INSERT INTO `form_submissions` (first_name, second_name, email, phone, eircode) VALUES (?, ?, ?, ?, ?)"

/-- Statement issued by `insertFormRow`: the fixed text plus the bound
parameters, in column order. -/
def insertFormRowStmt (v : FormValues) : String × List Str :=
  (insertFormRowSqlText, [v.first_name, v.second_name, v.email, v.phone, v.eircode])

/-- SQL text of the POST /api/submit handler (src/server.js lines
283-286): a fixed statement with five placeholders. -/
def apiSubmitSqlText : String :=
  "\n      INSERT INTO mysql_table (first_name, second_name, email, phone_number, eircode)\n      VALUES (?, ?, ?, ?, ?)\n    "

/-- Statement issued by the POST /api/submit handler. -/
def apiSubmitStmt (first_name second_name email phone_number eircode : Str) :
    String × List Str :=
  (apiSubmitSqlText, [first_name, second_name, email, phone_number, eircode])

/-- Statement issued by `insertMany` for one batch. -/
def insertManyStmt (columnNames : List String) (rows : List DbRow) :
    String × List DbRow :=
  (insertManySqlText columnNames, rows)

/-- Counterexample for C1: on the CSV import path the snake-cased,
user-controlled header name is concatenated into the SQL text, so the
text issued by `insertMany` (and by `createTableIfNotExists`) is not
independent of the CSV headers. -/
theorem insertMany_sql_depends_on_headers :
    toSnakeCaseStr "Email Address" = "email_address"
    ∧ insertManySqlText [toSnakeCaseStr "Email Address"]
        = "INSERT INTO `mysql_table` (`email_address`) VALUES ?"
    ∧ insertManySqlText [toSnakeCaseStr "Email Address"]
        ≠ insertManySqlText [toSnakeCaseStr "Phone"]
    ∧ createTableSqlText [toSnakeCaseStr "Email Address"]
        ≠ createTableSqlText [toSnakeCaseStr "Phone"] :=
  ⟨by decide, by decide, by decide, by decide⟩

/-- Claim C1 as amended: field values are passed only as bound
parameters and never influence the SQL text — the two form-path insert
statements have completely fixed text — but on the CSV path the
snake-cased header-derived column names are concatenated into the text
of the CREATE TABLE and bulk INSERT statements. -/
theorem sql_parameter_binding :
    (∀ v w : FormValues, (insertFormRowStmt v).1 = (insertFormRowStmt w).1)
    ∧ (∀ v : FormValues, (insertFormRowStmt v).2
        = [v.first_name, v.second_name, v.email, v.phone, v.eircode])
    ∧ (∀ a b c d e a2 b2 c2 d2 e2 : Str,
        (apiSubmitStmt a b c d e).1 = (apiSubmitStmt a2 b2 c2 d2 e2).1)
    ∧ (∀ a b c d e : Str, (apiSubmitStmt a b c d e).2 = [a, b, c, d, e])
    ∧ (∀ (cols : List String) (rows rows2 : List DbRow),
        (insertManyStmt cols rows).1 = (insertManyStmt cols rows2).1)
    ∧ (∀ (cols : List String) (rows : List DbRow), (insertManyStmt cols rows).2 = rows) :=
  ⟨fun _ _ => rfl, fun _ => rfl, fun _ _ _ _ _ _ _ _ _ _ => rfl, fun _ _ _ _ _ => rfl,
   fun _ _ _ => rfl, fun _ _ => rfl⟩

/-!
POST /api/submit route of src/server.js lines 264-294 (claim C10).
-/

/-- Source `nameRegex`: `^[A-Za-z0-9]{1,20}$`. -/
def nameRegexTest (v : Str) : Bool :=
  decide (1 ≤ v.length) && decide (v.length ≤ 20) && v.all isAlnumChar

/-- Source `phoneRegex`: `^\d{10}$`. -/
def phoneRegexTest (v : Str) : Bool :=
  decide (v.length = 10) && v.all isAsciiDigit

/-- Source `eircodeRegex`: `^[0-9][A-Za-z0-9]{5}$`. -/
def eircodeRegexTest (v : Str) : Bool :=
  match v with
  | c :: rest => isAsciiDigit c && decide (rest.length = 5) && rest.all isAlnumChar
  | [] => false

/-- Source `clean` (src/server.js lines 257-261): `String(str || "")`,
trim, then strip every angle bracket. -/
def cleanInput (v : Option String) : Str :=
  (trimChars (match v with | some s => s.data | none => [])).filter
    (fun c => !(c == '<' || c == '>'))

/-- Model of JS `toUpperCase` on the ASCII strings used here. -/
def asciiUpper (c : Char) : Char :=
  if isAsciiLowerChar c then Char.ofNat (c.toNat - 32) else c

inductive ApiOutcome where
  | rejected : String → ApiOutcome
  | accepted : List Str → ApiOutcome
deriving DecidableEq

/-- Source POST /api/submit handler: cleans each field, upper-cases the
eircode, validates with the regexes in source order, and on success
binds the five normalized values as statement parameters. -/
def apiSubmit (first_name second_name email phone_number eircode : Option String) :
    ApiOutcome :=
  let fn := cleanInput first_name
  let sn := cleanInput second_name
  let em := cleanInput email
  let ph := cleanInput phone_number
  let ec := (cleanInput eircode).map asciiUpper
  if !nameRegexTest fn then ApiOutcome.rejected "Invalid first_name"
  else if !nameRegexTest sn then ApiOutcome.rejected "Invalid second_name"
  else if !isValidEmail em then ApiOutcome.rejected "Invalid email"
  else if !phoneRegexTest ph then ApiOutcome.rejected "Invalid phone_number"
  else if !eircodeRegexTest ec then ApiOutcome.rejected "Invalid eircode"
  else ApiOutcome.accepted [fn, sn, em, ph, ec]

theorem asciiUpper_digit (c : Char) (h : isAsciiDigit c = true) : asciiUpper c = c := by
  have hb := h
  simp only [isAsciiDigit, Bool.and_eq_true, decide_eq_true_eq] at hb
  rw [asciiUpper, if_neg ?_]
  simp only [isAsciiLowerChar, Bool.and_eq_true, decide_eq_true_eq, not_and]
  omega

theorem asciiUpper_alnum (c : Char) (h : isAlnumChar c = true) :
    isAlnumChar (asciiUpper c) = true := by
  simp only [isAlnumChar, Bool.or_eq_true] at h ⊢
  rcases h with (hu | hl) | hd
  · have hb := hu
    simp only [isAsciiUpperChar, Bool.and_eq_true, decide_eq_true_eq] at hb
    have hlo : isAsciiLowerChar c = false := by
      simp only [isAsciiLowerChar, Bool.and_eq_false_iff, decide_eq_false_iff_not]
      omega
    rw [asciiUpper, if_neg (by simp [hlo])]
    exact Or.inl (Or.inl hu)
  · have hb := hl
    simp only [isAsciiLowerChar, Bool.and_eq_true, decide_eq_true_eq] at hb
    rw [asciiUpper, if_pos hl]
    left; left
    have hv : c.toNat - 32 < 0xd800 := by omega
    simp only [isAsciiUpperChar, Bool.and_eq_true, decide_eq_true_eq,
      char_toNat_ofNat hv]
    omega
  · have hb := hd
    simp only [isAsciiDigit, Bool.and_eq_true, decide_eq_true_eq] at hb
    have hlo : isAsciiLowerChar c = false := by
      simp only [isAsciiLowerChar, Bool.and_eq_false_iff, decide_eq_false_iff_not]
      omega
    rw [asciiUpper, if_neg (by simp [hlo])]
    exact Or.inr hd

/-- Claim C10: when the other four fields pass their checks and the
cleaned eircode is, up to letter case, a 6-character code starting with
a digit and otherwise alphanumeric, the request is accepted and the
persisted eircode parameter is the upper-cased form. -/
theorem apiSubmit_uppercases_eircode
    (b1 b2 b3 b4 b5 : Option String)
    (h1 : nameRegexTest (cleanInput b1) = true)
    (h2 : nameRegexTest (cleanInput b2) = true)
    (h3 : isValidEmail (cleanInput b3) = true)
    (h4 : phoneRegexTest (cleanInput b4) = true)
    (h5 : (cleanInput b5).length = 6)
    (h6 : ∀ a ∈ (cleanInput b5).head?, isAsciiDigit a = true)
    (h7 : ∀ c ∈ cleanInput b5, isAlnumChar c = true) :
    apiSubmit b1 b2 b3 b4 b5 =
      ApiOutcome.accepted [cleanInput b1, cleanInput b2, cleanInput b3, cleanInput b4,
        (cleanInput b5).map asciiUpper] := by
  have hec : eircodeRegexTest ((cleanInput b5).map asciiUpper) = true := by
    cases hc5 : cleanInput b5 with
    | nil => rw [hc5] at h5; simp at h5
    | cons c rest =>
      rw [hc5] at h5 h6 h7
      simp only [List.map_cons, eircodeRegexTest, Bool.and_eq_true, List.all_eq_true]
      have hd : isAsciiDigit c = true := h6 c rfl
      refine ⟨⟨by rw [asciiUpper_digit c hd]; exact hd, ?_⟩, ?_⟩
      · simp only [List.length_cons] at h5
        simp [List.length_map]
        omega
      · intro x hx
        rcases List.mem_map.mp hx with ⟨y, hy, rfl⟩
        exact asciiUpper_alnum y (h7 y (List.mem_cons_of_mem _ hy))
  simp only [apiSubmit, h1, h2, h3, h4, hec, Bool.not_true, Bool.false_eq_true, if_false]

/-- Witness for C10: the submission with eircode " 1ab2c3 " is accepted
and the stored eircode is "1AB2C3". -/
theorem apiSubmit_uppercases_eircode_witness :
    apiSubmit (some "Jane") (some "Doe") (some "jane@example.com") (some "0851234567")
        (some " 1ab2c3 ") =
      ApiOutcome.accepted ["Jane".data, "Doe".data, "jane@example.com".data,
        "0851234567".data, "1AB2C3".data] := by
  rw [apiSubmit_uppercases_eircode (some "Jane") (some "Doe") (some "jane@example.com")
    (some "0851234567") (some " 1ab2c3 ")
    (by decide) (by decide) (by decide) (by decide) (by decide) (by decide) (by decide)]
  decide
